import Mathlib

/-!
Verification of the TsStoreX store composition engine.

This file gives a shallow embedding of the parts of the TsStoreX source that
the checked properties are about:

  * the raw dispatch loop of the enhanced store (store module, setupRawDispatch);
  * the reducer combinators createReducer and combineReducers (reducer module),
    including the Immer-style structural sharing they rely on;
  * the middleware chain (compose module and the createMiddleware /
    handleSyncMiddleware machinery of the middleware module), including the
    debounce middleware built on handleAsyncMiddleware;
  * the effect startup / teardown logic of the enhanced store;
  * the signal projector cache (signals module).

JavaScript reference identity is modelled explicitly: a runtime value is a
pair of an object identity (a natural number) and a payload, and the tests
the source performs with === / !== are modelled as comparisons of the
identity component.  Fresh object allocation is modelled by threading an
explicit fresh identity where the source allocates (Immer produce results,
solid-js signal handles, RxJS subscription objects).
-/

namespace TsStoreX

/-- A JS value together with its object identity.  Two values are
reference-equal exactly when their `id` fields coincide. -/
structure RefVal (V : Type) where
  id : Nat
  val : V
deriving Repr, DecidableEq

/-- An action record.  The source type BaseAction also carries a timestamp and
a ulid-style id; the dispatch logic only inspects `type`, so the remaining
payload is kept abstract in `payload`. -/
structure Action where
  type : String
  payload : Nat := 0
deriving Repr, DecidableEq

/-- Errors a dispatch can surface, mirroring the throw sites of
setupRawDispatch: the invalid-action guard and a rethrown reducer error. -/
inductive DispatchErr where
  | invalidAction
  | reducerError (msg : String)
deriving Repr, DecidableEq

/-- The observable part of an enhanced store: the current value of the state
subject, the list of state emissions pushed so far (state subject, after the
initial value), and the list of actions pushed on the action subject. -/
structure StoreModel (V : Type) where
  current : RefVal V
  stateLog : List (RefVal V)
  actionLog : List Action
deriving Repr, DecidableEq

/-- A store reducer as the dispatch loop sees it: from the current state and
the action to either a thrown error or the returned state, where a `none`
result models a JS reducer returning undefined. -/
def StoreReducer (V : Type) : Type :=
  RefVal V → Action → Except String (Option (RefVal V))

/-- Result of one dispatch call: either it returns normally or it throws,
and in both cases the store is left in some (possibly updated) state. -/
inductive DispatchOutcome (V : Type) where
  | ok (st : StoreModel V)
  | thrown (e : DispatchErr) (st : StoreModel V)
deriving Repr, DecidableEq

/-- The store left behind by a dispatch, whether or not it threw. -/
def DispatchOutcome.store {V : Type} : DispatchOutcome V → StoreModel V
  | .ok st => st
  | .thrown _ st => st

/-- setupRawDispatch from the enhanced store.  Steps, in source order:
the invalid-action guard (a null action or a falsy `type`, modelled as the
empty string, throws before anything is published); the action is pushed on
the action subject; the reducer runs on the current state; a thrown reducer
error is logged and rethrown (the state subject is left untouched); an
undefined result is logged and the previous state kept; otherwise the new
state is pushed on the state subject only when it is not reference-equal to
the current one. -/
def rawDispatch {V : Type} (reducer : StoreReducer V) (st : StoreModel V)
    (action : Action) : DispatchOutcome V :=
  if action.type = "" then
    .thrown .invalidAction st
  else
    let st1 : StoreModel V := { st with actionLog := st.actionLog ++ [action] }
    match reducer st1.current action with
    | .error e => .thrown (.reducerError e) st1
    | .ok none => .ok st1
    | .ok (some newState) =>
        if newState.id ≠ st1.current.id then
          .ok { st1 with current := newState, stateLog := st1.stateLog ++ [newState] }
        else
          .ok st1

/-- C1: for every store state and every valid action, if the composed reducer
throws during dispatch then the dispatch itself throws with that error, and
the resulting store still holds the pre-dispatch state: getState is the old
reference and the state subject saw no new emission (only the action subject
saw the action). -/
theorem dispatch_reducer_throw_no_state_change {V : Type}
    (reducer : StoreReducer V) (st : StoreModel V) (action : Action)
    (msg : String)
    (hvalid : action.type ≠ "")
    (hthrow : reducer st.current action = .error msg) :
    rawDispatch reducer st action =
      .thrown (.reducerError msg)
        { st with actionLog := st.actionLog ++ [action] } ∧
    (rawDispatch reducer st action).store.current = st.current ∧
    (rawDispatch reducer st action).store.stateLog = st.stateLog := by
  have h : rawDispatch reducer st action =
      .thrown (.reducerError msg)
        { st with actionLog := st.actionLog ++ [action] } := by
    unfold rawDispatch
    rw [if_neg hvalid]
    simp only [hthrow]
  refine ⟨h, ?_, ?_⟩ <;> rw [h] <;> rfl

/-- A reducer that always throws, used to instantiate C1. -/
def alwaysThrowReducer : StoreReducer Nat :=
  fun _ _ => .error "boom"

/-- A sample one-field store. -/
def sampleStore : StoreModel Nat :=
  { current := ⟨0, 7⟩, stateLog := [], actionLog := [] }

/-- Witness for C1 at a concrete throwing reducer and store. -/
theorem dispatch_reducer_throw_no_state_change_witness :
    rawDispatch alwaysThrowReducer sampleStore ⟨"INC", 0⟩ =
      .thrown (.reducerError "boom")
        { sampleStore with actionLog := [⟨"INC", 0⟩] } ∧
    (rawDispatch alwaysThrowReducer sampleStore ⟨"INC", 0⟩).store.current
      = sampleStore.current ∧
    (rawDispatch alwaysThrowReducer sampleStore ⟨"INC", 0⟩).store.stateLog
      = sampleStore.stateLog := by
  have h := dispatch_reducer_throw_no_state_change alwaysThrowReducer
    sampleStore ⟨"INC", 0⟩ "boom" (by decide) rfl
  simpa using h

/-- C4: for every valid action, the dispatch publishes the action on the
action subject before the reducer runs: whatever the reducer does (returns,
returns undefined, or throws), the store left behind has the action appended
to the action log; in particular when the reducer throws, the thrown outcome
still carries the published action. -/
theorem dispatch_publishes_action_before_reducer {V : Type}
    (reducer : StoreReducer V) (st : StoreModel V) (action : Action)
    (hvalid : action.type ≠ "") :
    (rawDispatch reducer st action).store.actionLog
      = st.actionLog ++ [action] ∧
    (∀ msg, reducer st.current action = .error msg →
      rawDispatch reducer st action =
        .thrown (.reducerError msg)
          { st with actionLog := st.actionLog ++ [action] }) := by
  constructor
  · unfold rawDispatch
    rw [if_neg hvalid]
    cases hred : reducer st.current action with
    | error e => simp only [hred]; rfl
    | ok res =>
        cases res with
        | none => simp only [hred]; rfl
        | some newState =>
            simp only [hred]
            by_cases hid : newState.id = st.current.id
            · simp only [hid, ne_eq, not_true_eq_false, if_false, ite_false]; rfl
            · simp only [ne_eq, hid, not_false_eq_true, if_true, ite_true]; rfl
  · intro msg hthrow
    exact (dispatch_reducer_throw_no_state_change reducer st action msg
      hvalid hthrow).1

/-- Witness for C4 at the concrete throwing reducer: the action reaches the
action subject even though the reducer throws. -/
theorem dispatch_publishes_action_before_reducer_witness :
    (rawDispatch alwaysThrowReducer sampleStore ⟨"INC", 0⟩).store.actionLog
      = [⟨"INC", 0⟩] ∧
    rawDispatch alwaysThrowReducer sampleStore ⟨"INC", 0⟩ =
      .thrown (.reducerError "boom")
        { sampleStore with actionLog := [⟨"INC", 0⟩] } := by
  have h := dispatch_publishes_action_before_reducer alwaysThrowReducer
    sampleStore ⟨"INC", 0⟩ (by decide)
  exact ⟨by simpa using h.1, by simpa using h.2 "boom" rfl⟩


/-- A slot of the combined state tree: a branch value or undefined.  The
source reads state[key], which is undefined when the branch was never
initialized. -/
def BranchVal (V : Type) : Type := Option (RefVal V)

/-- JS `!==` on possibly-undefined branch values: two undefined values are
identical, an undefined and a defined value differ, and two defined values
differ exactly when their object identities differ. -/
def refNe {V : Type} : BranchVal V → BranchVal V → Bool
  | none, none => false
  | some a, some b => a.id != b.id
  | none, some _ => true
  | some _, none => true

/-- A branch reducer as combineReducers invokes it: it receives the previous
branch value (possibly undefined) and the action.  The embedded branch
reducers never throw inside combineReducers; a branch returning undefined is
representable as a `none` result. -/
def BranchReducer (V : Type) : Type := BranchVal V → Action → BranchVal V

/-- One step of the forEach loop in the update path of combineReducers: run
the branch reducer on the previous branch value; when the result is not
reference-equal to the previous value, write it back to the draft and flag
the change, otherwise keep the previous value. -/
def combineStep {V : Type} (action : Action)
    (acc : List (BranchVal V) × Bool) (rb : BranchReducer V × BranchVal V) :
    List (BranchVal V) × Bool :=
  let nextStateForKey := rb.1 rb.2 action
  if refNe nextStateForKey rb.2 then
    (acc.1 ++ [nextStateForKey], true)
  else
    (acc.1 ++ [rb.2], acc.2)

/-- combineReducers from the reducer module.  The state tree is modelled
positionally: the branch slots are listed in key enumeration order, aligned
with the reducer list.  On an undefined state every branch reducer is run on
undefined to build the initial tree, and a branch producing undefined is a
fatal configuration error.  On a defined state each branch is reduced and
written back to the Immer draft only when it changed by reference; the
produce result is a freshly allocated root when at least one branch changed,
and the original root reference otherwise. -/
def combineReducers {V : Type} (reducers : List (BranchReducer V))
    (fresh : Nat) (state : Option (RefVal (List (BranchVal V))))
    (action : Action) : Except String (RefVal (List (BranchVal V))) :=
  match state with
  | none =>
      let inits := reducers.map (fun r => r none action)
      if inits.any Option.isNone then
        .error "UninitializedBranch"
      else
        .ok ⟨fresh, inits⟩
  | some root =>
      let step := (List.zip reducers root.val).foldl (combineStep action) ([], false)
      if step.2 then .ok ⟨fresh, step.1⟩ else .ok root

/-- The combined reducer as the store invokes it: the store always passes the
defined current state, and a combineReducers error would propagate as a
reducer throw. -/
def combinedStoreReducer {V : Type} (reducers : List (BranchReducer V))
    (fresh : Nat) : StoreReducer (List (BranchVal V)) :=
  fun cur a =>
    match combineReducers reducers fresh (some cur) a with
    | .ok v => .ok (some v)
    | .error e => .error e

/-- The forEach loop leaves the draft untouched when every branch reducer
output is reference-equal to its input. -/
theorem combineStep_foldl_unchanged {V : Type} (action : Action)
    (l : List (BranchReducer V × BranchVal V)) (acc : List (BranchVal V))
    (hall : l.all (fun rb => !refNe (rb.1 rb.2 action) rb.2) = true) :
    l.foldl (combineStep action) (acc, false)
      = (acc ++ l.map (fun rb => rb.2), false) := by
  induction l generalizing acc with
  | nil => simp
  | cons hd tl ih =>
      rw [List.all_cons, Bool.and_eq_true] at hall
      have hhd : refNe (hd.1 hd.2 action) hd.2 = false := by
        simpa using hall.1
      have htl : tl.all (fun rb => !refNe (rb.1 rb.2 action) rb.2) = true :=
        hall.2
      simp only [List.foldl_cons, combineStep, hhd, Bool.false_eq_true,
        if_false, List.map_cons]
      rw [ih (acc ++ [hd.2]) htl]
      simp

/-- C2: for every combined state tree and every action, if no branch reducer
output differs from its input by reference, then combineReducers returns the
very same root reference, and dispatching the action through the store
leaves getState at the old reference with no state emission (only the action
log grows).  The witness instantiates this with createReducer branches and
an action of unknown type. -/
theorem combine_unchanged_same_reference {V : Type}
    (reducers : List (BranchReducer V)) (fresh : Nat)
    (st : StoreModel (List (BranchVal V))) (action : Action)
    (hvalid : action.type ≠ "")
    (hall : (List.zip reducers st.current.val).all
      (fun rb => !refNe (rb.1 rb.2 action) rb.2) = true) :
    combineReducers reducers fresh (some st.current) action = .ok st.current ∧
    rawDispatch (combinedStoreReducer reducers fresh) st action =
      .ok { st with actionLog := st.actionLog ++ [action] } := by
  have hcomb : combineReducers reducers fresh (some st.current) action
      = .ok st.current := by
    have hfold := combineStep_foldl_unchanged action
      (List.zip reducers st.current.val) [] hall
    simp [combineReducers, hfold]
  refine ⟨hcomb, ?_⟩
  unfold rawDispatch
  rw [if_neg hvalid]
  simp only [combinedStoreReducer, hcomb]
  simp

/-- Outcome of a createReducer handler on the Immer draft of the state: it
either returns a replacement state object outright, or returns undefined
after possibly mutating the draft (`changed` records whether the draft was
written, which decides whether produce allocates a fresh result). -/
inductive HandlerResult (V : Type) where
  | ret (v : RefVal V)
  | mutate (newVal : V) (changed : Bool)

/-- A handler bound to one action type by `on`: it may throw, and otherwise
yields a HandlerResult. -/
def Handler (V : Type) : Type := V → Action → Except String (HandlerResult V)

/-- The handlerMap built by createReducer: registration via Map.set, so a
later handler for the same type overrides an earlier one. -/
def lookupHandler {V : Type} (handlers : List (String × Handler V))
    (t : String) : Option (Handler V) :=
  handlers.foldl (fun acc h => if h.1 = t then some h.2 else acc) none

/-- createReducer from the reducer module.  An undefined incoming state
defaults to the initial state; an action type with no handler returns the
previous state unchanged; a handler throw is caught, logged, and the
previous state is returned unchanged; a handler that returns a value
overrides the produce result; otherwise produce returns a fresh object when
the draft was mutated and the previous reference otherwise. -/
def createReducer {V : Type} (initialState : RefVal V)
    (handlers : List (String × Handler V)) (fresh : Nat)
    (state : Option (RefVal V)) (action : Action) : RefVal V :=
  let s := state.getD initialState
  match lookupHandler handlers action.type with
  | none => s
  | some h =>
      match h s.val action with
      | .error _ => s
      | .ok (.ret v) => v
      | .ok (.mutate newVal changed) =>
          if changed then ⟨fresh, newVal⟩ else s

/-- A createReducer-built reducer as the store invokes it (defined current
state, never throws because createReducer catches internally). -/
def createReducerStoreReducer {V : Type} (initialState : RefVal V)
    (handlers : List (String × Handler V)) (fresh : Nat) : StoreReducer V :=
  fun cur a => .ok (some (createReducer initialState handlers fresh (some cur) a))

/-- C10: for every createReducer-built reducer, if the handler matched by the
action type throws, the reducer catches the exception and returns the
previous state unchanged (same reference); consequently dispatching that
action through the store neither throws nor changes the state, and no state
emission occurs. -/
theorem createReducer_handler_throw_keeps_state {V : Type}
    (initialState : RefVal V) (handlers : List (String × Handler V))
    (fresh : Nat) (st : StoreModel V) (action : Action)
    (h : Handler V) (msg : String)
    (hvalid : action.type ≠ "")
    (hlook : lookupHandler handlers action.type = some h)
    (hthrow : h st.current.val action = .error msg) :
    createReducer initialState handlers fresh (some st.current) action
      = st.current ∧
    rawDispatch (createReducerStoreReducer initialState handlers fresh)
      st action = .ok { st with actionLog := st.actionLog ++ [action] } := by
  have hred : createReducer initialState handlers fresh (some st.current)
      action = st.current := by
    unfold createReducer
    simp only [Option.getD_some, hlook, hthrow]
  refine ⟨hred, ?_⟩
  unfold rawDispatch
  rw [if_neg hvalid]
  simp only [createReducerStoreReducer, hred]
  simp

/-- A handler that always throws, used to instantiate C10. -/
def throwingHandler : Handler Nat :=
  fun _ _ => .error "handler failed"

/-- Witness for C10: a store whose INC handler throws; dispatching INC
returns normally, keeps the state reference, and emits nothing. -/
theorem createReducer_handler_throw_keeps_state_witness :
    createReducer ⟨0, 7⟩ [("INC", throwingHandler)] 5
      (some sampleStore.current) ⟨"INC", 0⟩ = sampleStore.current ∧
    rawDispatch (createReducerStoreReducer ⟨0, 7⟩ [("INC", throwingHandler)] 5)
      sampleStore ⟨"INC", 0⟩ =
      .ok { sampleStore with actionLog := [⟨"INC", 0⟩] } := by
  have h := createReducer_handler_throw_keeps_state ⟨0, 7⟩
    [("INC", throwingHandler)] 5 sampleStore ⟨"INC", 0⟩
    throwingHandler "handler failed" (by decide) rfl rfl
  simpa using h

/-- A counter handler that increments the draft, used in witnesses. -/
def incHandler : Handler Nat :=
  fun s _ => .ok (.mutate (s + 1) true)

/-- Witness for C2: two createReducer branches (a counter and a flag branch,
only the counter has a handler, for INC) receive an action of unknown type;
both return their input reference, so dispatch keeps the root reference and
emits nothing. -/
theorem combine_unchanged_same_reference_witness :
    (List.zip
        [fun b a => some (createReducer ⟨0, 7⟩ [("INC", incHandler)] 6 b a),
         (fun b _ => b : BranchReducer Nat)]
        ([some ⟨1, 3⟩, some ⟨2, 4⟩] : List (BranchVal Nat))).all
      (fun rb => !refNe (rb.1 rb.2 ⟨"UNKNOWN", 0⟩) rb.2) = true ∧
    combineReducers
        [fun b a => some (createReducer ⟨0, 7⟩ [("INC", incHandler)] 6 b a),
         (fun b _ => b : BranchReducer Nat)] 9
        (some ⟨5, [some ⟨1, 3⟩, some ⟨2, 4⟩]⟩) ⟨"UNKNOWN", 0⟩
      = .ok ⟨5, [some ⟨1, 3⟩, some ⟨2, 4⟩]⟩ ∧
    rawDispatch
        (combinedStoreReducer
          [fun b a => some (createReducer ⟨0, 7⟩ [("INC", incHandler)] 6 b a),
           (fun b _ => b : BranchReducer Nat)] 9)
        { current := ⟨5, [some ⟨1, 3⟩, some ⟨2, 4⟩]⟩, stateLog := [],
          actionLog := [] } ⟨"UNKNOWN", 0⟩ =
      .ok { current := ⟨5, [some ⟨1, 3⟩, some ⟨2, 4⟩]⟩, stateLog := [],
            actionLog := [⟨"UNKNOWN", 0⟩] } := by
  have hall : (List.zip
        [fun b a => some (createReducer ⟨0, 7⟩ [("INC", incHandler)] 6 b a),
         (fun b _ => b : BranchReducer Nat)]
        ([some ⟨1, 3⟩, some ⟨2, 4⟩] : List (BranchVal Nat))).all
      (fun rb => !refNe (rb.1 rb.2 ⟨"UNKNOWN", 0⟩) rb.2) = true := by
    decide
  have h := combine_unchanged_same_reference
    [fun b a => some (createReducer ⟨0, 7⟩ [("INC", incHandler)] 6 b a),
     (fun b _ => b : BranchReducer Nat)] 9
    { current := ⟨5, [some ⟨1, 3⟩, some ⟨2, 4⟩]⟩, stateLog := [],
      actionLog := [] } ⟨"UNKNOWN", 0⟩ (by decide) hall
  exact ⟨hall, h.1, h.2⟩


/-- Events observable while a dispatch runs through the middleware chain:
the before / after / error hooks of a named middleware, and the terminal
reducer run. -/
inductive HookEv where
  | beforeH (name : String)
  | afterH (name : String)
  | errorH (name : String)
  | reducerRun
deriving Repr, DecidableEq

/-- A dispatch function inside the chain: from the action and the event
trace so far to the extended trace and either a normal return or a thrown
error. -/
def DispatchFn : Type :=
  Action → List HookEv → List HookEv × Except String Unit

/-- A middleware after the api-application stage of composeMiddleware (the
source maps each middleware over the store api before composing): a
transformer of the next dispatch function. -/
def MiddlewareFn : Type := DispatchFn → DispatchFn

/-- compose / composeMiddleware from the compose module: the chain fold
`funcs.reduce((a, b) => (...args) => a(b(...args)))` applied to the final
dispatch, so the first middleware in the list ends up outermost. -/
def composeMiddleware (chain : List MiddlewareFn)
    (finalDispatch : DispatchFn) : DispatchFn :=
  chain.foldr (fun mw acc => mw acc) finalDispatch

/-- The lifecycle hooks handed to createMiddleware.  A before hook may
replace the action; an error hook may supply a recovery action (which makes
the middleware swallow the error).  Hooks also extend the event trace. -/
structure SyncHooks where
  beforeHook : Option (Action → List HookEv → List HookEv × Option Action) := none
  afterHook : Option (Action → List HookEv → List HookEv) := none
  errorHook : Option (Action → String → List HookEv → List HookEv × Option Action) := none

/-- handleSyncMiddleware from the middleware module: run the before hook
(its non-undefined action result replaces the action), call next, run the
after hook on success; on a thrown error run the error hook, swallow the
error when the hook returns a recovery action, and rethrow otherwise. -/
def handleSyncMiddleware (hooks : SyncHooks) (next : DispatchFn) : DispatchFn :=
  fun action tr =>
    let stage :=
      match hooks.beforeHook with
      | some f =>
          let r := f action tr
          (r.1, (r.2).getD action)
      | none => (tr, action)
    match next stage.2 stage.1 with
    | (tr2, .ok _) =>
        match hooks.afterHook with
        | some g => (g stage.2 tr2, .ok ())
        | none => (tr2, .ok ())
    | (tr2, .error e) =>
        match hooks.errorHook with
        | some h =>
            let r := h stage.2 e tr2
            match r.2 with
            | some _ => (r.1, .ok ())
            | none => (r.1, .error e)
        | none => (tr2, .error e)

/-- createMiddleware from the middleware module (synchronous path): a
disabled middleware forwards the action untouched, an action filter that
rejects the action forwards it untouched, and otherwise the hooks run via
handleSyncMiddleware. -/
def createMiddleware (hooks : SyncHooks) (enabled : Bool)
    (actionFilter : Option (Action → Bool)) : MiddlewareFn :=
  fun next action tr =>
    if !enabled then next action tr
    else
      match actionFilter with
      | some f =>
          if f action then handleSyncMiddleware hooks next action tr
          else next action tr
      | none => handleSyncMiddleware hooks next action tr

/-- Hooks that only record their own invocation in the trace: the shape of
the logging middlewares used to observe hook ordering. -/
def loggingHooks (name : String) : SyncHooks :=
  { beforeHook := some (fun _ tr => (tr ++ [.beforeH name], none)),
    afterHook := some (fun _ tr => tr ++ [.afterH name]),
    errorHook := some (fun _ _ tr => (tr ++ [.errorH name], none)) }

/-- The terminal raw dispatch of the chain: it records the reducer run and
either returns or throws, depending on the reducer behavior `res`. -/
def terminalDispatch (res : Option String) : DispatchFn :=
  fun _ tr =>
    (tr ++ [.reducerRun],
      match res with
      | none => .ok ()
      | some e => .error e)

/-- C3: with middlewares [A, B] registered in that order, the composed
dispatch behaves as nested composition with A outermost: on a successful
dispatch the observed order is A.before, B.before, reducer, B.after,
A.after; when the reducer throws, B.error observes the error before
A.error, and the error then propagates.  Universally quantified over the
middleware names, the dispatched action, the prior trace, and the reducer
behavior. -/
theorem middleware_chain_nesting_order (a b : String) (action : Action)
    (tr : List HookEv) (res : Option String) :
    composeMiddleware
        [createMiddleware (loggingHooks a) true none,
         createMiddleware (loggingHooks b) true none]
        (terminalDispatch res) action tr =
      match res with
      | none =>
          (tr ++ [.beforeH a, .beforeH b, .reducerRun, .afterH b, .afterH a],
            .ok ())
      | some e =>
          (tr ++ [.beforeH a, .beforeH b, .reducerRun, .errorH b, .errorH a],
            .error e) := by
  cases res with
  | none =>
      simp [composeMiddleware, createMiddleware, handleSyncMiddleware,
        loggingHooks, terminalDispatch]
  | some e =>
      simp [composeMiddleware, createMiddleware, handleSyncMiddleware,
        loggingHooks, terminalDispatch]


/-- A pending debounce timer: the time at which setTimeout fires, the action
type it is keyed under in the debounceMap, and the retained action. -/
structure PendingTimer where
  fireTime : Nat
  key : String
  action : Action
deriving Repr, DecidableEq

/-- The debounce middleware closure state: the pending timers of the
debounceMap (kept sorted by fire time, mirroring the timer queue) and the
actions forwarded to the next dispatch so far, each with its forwarding
time. -/
structure DebounceState where
  pending : List PendingTimer
  output : List (Nat × Action)
deriving Repr, DecidableEq

/-- Insert a timer into the queue, keeping it sorted by fire time. -/
def insertByTime (e : PendingTimer) : List PendingTimer → List PendingTimer
  | [] => [e]
  | x :: xs =>
      if e.fireTime < x.fireTime then e :: x :: xs else x :: insertByTime e xs

/-- clearTimeout of the timer stored under a key of the debounceMap. -/
def eraseKey (k : String) (l : List PendingTimer) : List PendingTimer :=
  l.filter (fun p => p.key != k)

/-- Advance the event loop to `now`: every timer due by then fires, which
resolves the promise of its retained action, forwarding the action to the
next dispatch. -/
def fireDue (now : Nat) (st : DebounceState) : DebounceState :=
  { pending := st.pending.filter (fun p => decide (now < p.fireTime)),
    output := st.output ++
      (st.pending.filter (fun p => decide (p.fireTime ≤ now))).map
        (fun p => (p.fireTime, p.action)) }

/-- One dispatch through the debounce middleware at time `ev.1`.  Due timers
fire first.  An action whose type is not debounced (the actionFilter of
createMiddleware, and the shouldDebounce test of the before hook) is
forwarded untouched immediately.  A debounced action clears the previous
timer for its type - whose promise therefore never resolves, so the
superseded action is discarded, never forwarded - and installs a fresh timer
for itself, to fire one quiet interval later. -/
def debounceDispatch (interval : Nat) (actionTypes : Option (List String))
    (st : DebounceState) (ev : Nat × Action) : DebounceState :=
  let st1 := fireDue ev.1 st
  let shouldDebounce :=
    match actionTypes with
    | none => true
    | some ts => ts.contains ev.2.type
  if shouldDebounce then
    { pending := insertByTime ⟨ev.1 + interval, ev.2.type, ev.2⟩
        (eraseKey ev.2.type st1.pending),
      output := st1.output }
  else
    { st1 with output := st1.output ++ [(ev.1, ev.2)] }

/-- Run the debounce middleware over a chronological list of dispatches and
then let the event loop drain: the forwarded actions, in forwarding order. -/
def runDebounce (interval : Nat) (actionTypes : Option (List String))
    (events : List (Nat × Action)) : List (Nat × Action) :=
  let final := events.foldl (debounceDispatch interval actionTypes) ⟨[], []⟩
  final.output ++ final.pending.map (fun p => (p.fireTime, p.action))

/-- The chronological well-formedness of a burst of dispatches: strictly
increasing times, each arriving within one quiet interval of its
predecessor. -/
def withinChain (interval : Nat) : List (Nat × Action) → Bool
  | [] => true
  | [_] => true
  | e1 :: e2 :: rest =>
      (decide (e1.1 < e2.1) && decide (e2.1 < e1.1 + interval))
        && withinChain interval (e2 :: rest)

/-- A dispatch of a debounced action arriving before the pending timer of
the same type fires supersedes it: the old timer is cleared (its action is
dropped) and a fresh timer retains only the new action. -/
theorem debounceDispatch_supersede (i : Nat) (ts : List String) (t1 : String)
    (t u : Nat) (a b : Action) (out : List (Nat × Action))
    (hlt : u < t + i) (htype : b.type = t1) (hts : ts.contains t1 = true) :
    debounceDispatch i (some ts) ⟨[⟨t + i, t1, a⟩], out⟩ (u, b)
      = ⟨[⟨u + i, t1, b⟩], out⟩ := by
  have hnotdue : ¬ (t + i ≤ u) := Nat.not_le.mpr hlt
  have hmem : t1 ∈ ts := by simpa using hts
  simp [debounceDispatch, fireDue, eraseKey, insertByTime, htype, hmem,
    hlt, hnotdue]

/-- The first dispatch of a debounced burst just installs a timer. -/
theorem debounceDispatch_first (i : Nat) (ts : List String) (t1 : String)
    (u : Nat) (b : Action)
    (htype : b.type = t1) (hts : ts.contains t1 = true) :
    debounceDispatch i (some ts) ⟨[], []⟩ (u, b) = ⟨[⟨u + i, t1, b⟩], []⟩ := by
  have hmem : t1 ∈ ts := by simpa using hts
  simp [debounceDispatch, fireDue, eraseKey, insertByTime, htype, hmem]

/-- Folding a burst of debounced dispatches over a state holding one pending
timer of their common type: every intermediate action is superseded, and
only a timer for the last action survives. -/
theorem debounce_foldl_chain (i : Nat) (ts : List String) (t1 : String)
    (events : List (Nat × Action)) :
    ∀ (t : Nat) (a : Action) (out : List (Nat × Action)),
    ts.contains t1 = true →
    a.type = t1 →
    events.all (fun e => e.2.type == t1) = true →
    withinChain i ((t, a) :: events) = true →
    events.foldl (debounceDispatch i (some ts)) ⟨[⟨t + i, t1, a⟩], out⟩
      = ⟨[⟨(events.getLastD (t, a)).1 + i, t1, (events.getLastD (t, a)).2⟩],
          out⟩ := by
  induction events with
  | nil =>
      intro t a out _ _ _ _
      simp [List.getLastD]
  | cons hd tl ih =>
      intro t a out hts htype hall hchain
      obtain ⟨u, b⟩ := hd
      rw [List.all_cons, Bool.and_eq_true] at hall
      have hbtype : b.type = t1 := by simpa using hall.1
      have h0 : withinChain i ((t, a) :: (u, b) :: tl)
          = ((decide (t < u) && decide (u < t + i))
              && withinChain i ((u, b) :: tl)) := rfl
      rw [h0, Bool.and_eq_true, Bool.and_eq_true] at hchain
      have hlt : u < t + i := by simpa using hchain.1.2
      have hchaintl : withinChain i ((u, b) :: tl) = true := hchain.2
      rw [List.foldl_cons,
        debounceDispatch_supersede i ts t1 t u a b out hlt hbtype hts,
        ih u b out hts hbtype hall.2 hchaintl, List.getLastD_cons]

/-- C9: for the debounce middleware configured for a set of action types and
quiet interval i, a burst of matching actions arriving with consecutive gaps
shorter than i results in every superseded action being fully discarded and
exactly one forwarded action, the most recent one, forwarded once an
interval of i has elapsed after the last arrival. -/
theorem debounce_discards_superseded_forwards_last
    (interval : Nat) (ts : List String) (t1 : String)
    (t0 : Nat) (a0 : Action) (rest : List (Nat × Action))
    (hts : ts.contains t1 = true)
    (hall : (((t0, a0) :: rest).all (fun e => e.2.type == t1)) = true)
    (hchain : withinChain interval ((t0, a0) :: rest) = true) :
    runDebounce interval (some ts) ((t0, a0) :: rest)
      = [((rest.getLastD (t0, a0)).1 + interval,
          (rest.getLastD (t0, a0)).2)] := by
  rw [List.all_cons, Bool.and_eq_true] at hall
  have htype : a0.type = t1 := by simpa using hall.1
  unfold runDebounce
  rw [List.foldl_cons, debounceDispatch_first interval ts t1 t0 a0 htype hts,
    debounce_foldl_chain interval ts t1 rest t0 a0 [] hts htype hall.2 hchain]
  simp

/-- Witness for C9, the concrete scenario of the spec: three SEARCH actions
at 0ms, 4ms and 10ms under a 100ms interval produce exactly one forwarded
action, the last, at 110ms. -/
theorem debounce_discards_superseded_forwards_last_witness :
    (["SEARCH"].contains "SEARCH" = true) ∧
    (([((0 : Nat), (⟨"SEARCH", 1⟩ : Action)), (4, ⟨"SEARCH", 2⟩),
        (10, ⟨"SEARCH", 3⟩)].all (fun e => e.2.type == "SEARCH")) = true) ∧
    (withinChain 100 [((0 : Nat), (⟨"SEARCH", 1⟩ : Action)),
        (4, ⟨"SEARCH", 2⟩), (10, ⟨"SEARCH", 3⟩)] = true) ∧
    runDebounce 100 (some ["SEARCH"])
        [((0 : Nat), (⟨"SEARCH", 1⟩ : Action)), (4, ⟨"SEARCH", 2⟩),
          (10, ⟨"SEARCH", 3⟩)]
      = [(110, ⟨"SEARCH", 3⟩)] := by
  refine ⟨by decide, by decide, by decide, ?_⟩
  have h := debounce_discards_superseded_forwards_last 100 ["SEARCH"]
    "SEARCH" 0 ⟨"SEARCH", 1⟩ [(4, ⟨"SEARCH", 2⟩), (10, ⟨"SEARCH", 3⟩)]
    (by decide) (by decide) (by decide)
  simpa using h


/-- The observable behavior of one registered effect when started: invoking
the effect function either throws synchronously, or yields a stream that
emits some actions and then either completes or errors. -/
inductive EffectRun where
  | throwsOnInvoke (msg : String)
  | stream (emitted : List Action) (failure : Option String)
deriving Repr, DecidableEq

/-- What startSingleEffect of the enhanced store produces for one effect:
the actions its subscription feeds back into dispatch, whether a
subscription was registered, and the errors routed to the logger. -/
structure EffectResult where
  dispatched : List Action
  subscribed : Bool
  loggedErrors : List String
deriving Repr, DecidableEq

/-- startSingleEffect from the enhanced store.  A synchronous throw of the
effect function is caught by the surrounding try, logged, and no
subscription is registered.  A stream error is caught by the catchError
operator, logged, and the rest of the stream replaced by EMPTY, so the
actions emitted before the failure are dispatched and nothing propagates. -/
def startSingleEffectRun : EffectRun → EffectResult
  | .throwsOnInvoke m => ⟨[], false, [m]⟩
  | .stream acts none => ⟨acts, true, []⟩
  | .stream acts (some m) => ⟨acts, true, [m]⟩

/-- startEffects from the enhanced store: every registered effect is started
independently. -/
def startEffectsRun (runs : List EffectRun) : List EffectResult :=
  runs.map startSingleEffectRun

/-- An effect run that fails: a synchronous throw or a stream error. -/
def effectFails : EffectRun → Bool
  | .throwsOnInvoke _ => true
  | .stream _ (some _) => true
  | .stream _ none => false

/-- The actions an effect emits strictly before its failure point. -/
def effectEmittedBeforeFailure : EffectRun → List Action
  | .throwsOnInvoke _ => []
  | .stream acts _ => acts

/-- C5: a failing effect (an effect function that throws on invocation, or
whose output stream errors) is logged and its stream is treated as empty:
its subscription only ever feeds the actions emitted before the failure into
dispatch and surfaces no error, and the results of all other effects are
exactly what they would be in isolation - the failure never reaches them or
the dispatch path (startEffectsRun is a total function into per-effect
results; there is no error outcome). -/
theorem effect_failure_is_isolated (xs ys : List EffectRun) (r : EffectRun)
    (hfail : effectFails r = true) :
    (startSingleEffectRun r).loggedErrors ≠ [] ∧
    (startSingleEffectRun r).dispatched = effectEmittedBeforeFailure r ∧
    startEffectsRun (xs ++ r :: ys)
      = startEffectsRun xs ++ startSingleEffectRun r :: startEffectsRun ys := by
  refine ⟨?_, ?_, ?_⟩
  · cases r with
    | throwsOnInvoke m => simp [startSingleEffectRun]
    | stream acts failure =>
        cases failure with
        | none => simp [effectFails] at hfail
        | some m => simp [startSingleEffectRun]
  · cases r with
    | throwsOnInvoke m => rfl
    | stream acts failure => cases failure <;> rfl
  · simp [startEffectsRun]

/-- Witness for C5: a healthy effect, a stream-erroring effect that emitted
one action first, and another healthy effect; the failure is logged, the
pre-failure emission is still dispatched, and the neighbours are
untouched. -/
theorem effect_failure_is_isolated_witness :
    effectFails (.stream [⟨"SET_LOADING", 0⟩] (some "stream failed")) = true ∧
    (startSingleEffectRun
        (.stream [⟨"SET_LOADING", 0⟩] (some "stream failed"))).loggedErrors
      ≠ [] ∧
    (startSingleEffectRun
        (.stream [⟨"SET_LOADING", 0⟩] (some "stream failed"))).dispatched
      = effectEmittedBeforeFailure
          (.stream [⟨"SET_LOADING", 0⟩] (some "stream failed")) ∧
    startEffectsRun
        [.stream [⟨"A", 1⟩] none,
         .stream [⟨"SET_LOADING", 0⟩] (some "stream failed"),
         .stream [⟨"B", 2⟩] none]
      = startEffectsRun [.stream [⟨"A", 1⟩] none]
          ++ startSingleEffectRun
              (.stream [⟨"SET_LOADING", 0⟩] (some "stream failed"))
            :: startEffectsRun [.stream [⟨"B", 2⟩] none] := by
  have h := effect_failure_is_isolated [.stream [⟨"A", 1⟩] none]
    [.stream [⟨"B", 2⟩] none]
    (.stream [⟨"SET_LOADING", 0⟩] (some "stream failed")) (by decide)
  exact ⟨by decide, h.1, h.2.1, h.2.2⟩

/-- The effect registry and subscription bookkeeping of the enhanced store.
Subscription objects are modelled by identity; `fresh` is the identity the
next subscribe call allocates, and `unsubscribed` logs every identity on
which unsubscribe was called. -/
structure EffStore where
  effects : List String
  effectSubs : List Nat
  unsubscribed : List Nat
  fresh : Nat
deriving Repr, DecidableEq

/-- startSingleEffect viewed at the subscription level: subscribing to the
effect stream pushes a freshly allocated subscription onto
effectSubscriptions. -/
def startSingleEffectSub (st : EffStore) : EffStore :=
  { st with effectSubs := st.effectSubs ++ [st.fresh], fresh := st.fresh + 1 }

/-- startEffects: one fresh subscription per registered effect, in order. -/
def startEffectsSub (st : EffStore) : EffStore :=
  st.effects.foldl (fun s _ => startSingleEffectSub s) st

/-- stopEffects: unsubscribe every current effect subscription and reset the
subscription array. -/
def stopEffectsSub (st : EffStore) : EffStore :=
  { st with
    unsubscribed := st.unsubscribed ++ st.effectSubs
    effectSubs := [] }

/-- removeEffect from the enhanced store: when the name is registered, drop
it from the effect list, then stopEffects (all subscriptions, not only the
removed one) and startEffects again. -/
def removeEffectSub (name : String) (st : EffStore) : EffStore :=
  if st.effects.contains name then
    startEffectsSub (stopEffectsSub { st with effects := st.effects.erase name })
  else st

/-- addEffect from the enhanced store: an existing effect of the same name
is replaced via removeEffect; the new effect is appended and started
immediately on the same action and state streams. -/
def addEffectSub (name : String) (st : EffStore) : EffStore :=
  let st1 := if st.effects.contains name then removeEffectSub name st else st
  startSingleEffectSub { st1 with effects := st1.effects ++ [name] }

/-- The subscription identities a run of startEffects allocates: `n` fresh
consecutive identities starting at `start`. -/
def freshSubs (start : Nat) : Nat → List Nat
  | 0 => []
  | n + 1 => start :: freshSubs (start + 1) n

/-- startEffects appends one fresh subscription per registered effect. -/
theorem startEffectsSub_foldl (l : List String) (st : EffStore) :
    l.foldl (fun s _ => startSingleEffectSub s) st
      = { st with
          effectSubs := st.effectSubs ++ freshSubs st.fresh l.length
          fresh := st.fresh + l.length } := by
  induction l generalizing st with
  | nil => simp [freshSubs]
  | cons hd tl ih =>
      rw [List.foldl_cons, ih]
      simp [startSingleEffectSub, freshSubs, Nat.add_comm, Nat.add_assoc,
        Nat.add_left_comm]

/-- A two-effect store right after construction: subscriptions 0 and 1
belong to e1 and e2. -/
def twoEffectStore : EffStore :=
  { effects := ["e1", "e2"], effectSubs := [0, 1], unsubscribed := [], fresh := 2 }

/-- Counterexample to C8: removing e2 from a store running e1 and e2 does
not leave the subscription of e1 undisturbed - the subscription 0 of e1 is
unsubscribed and e1 is resubscribed under the fresh identity 2. -/
theorem removeEffect_disturbs_others_counterexample :
    removeEffectSub "e2" twoEffectStore
      = { effects := ["e1"], effectSubs := [2], unsubscribed := [0, 1],
          fresh := 3 } ∧
    (0 : Nat) ∈ (removeEffectSub "e2" twoEffectStore).unsubscribed ∧
    (0 : Nat) ∉ (removeEffectSub "e2" twoEffectStore).effectSubs := by
  refine ⟨?_, by decide, by decide⟩
  decide

/-- C8 as amended: removing a registered effect by name removes it from the
registry but tears down the subscriptions of ALL effects and restarts every
remaining effect with fresh subscriptions on the same streams (the enhanced
store implements removal as stopEffects followed by startEffects); adding an
effect under an unused name appends it and starts it immediately with one
fresh subscription, leaving the existing subscriptions in place. -/
theorem removeEffect_restarts_all_addEffect_starts_immediately
    (st : EffStore) (oldName newName : String)
    (hin : st.effects.contains oldName = true)
    (hout : st.effects.contains newName = false) :
    removeEffectSub oldName st
      = { effects := st.effects.erase oldName,
          effectSubs := freshSubs st.fresh (st.effects.erase oldName).length,
          unsubscribed := st.unsubscribed ++ st.effectSubs,
          fresh := st.fresh + (st.effects.erase oldName).length } ∧
    addEffectSub newName st
      = { st with
          effects := st.effects ++ [newName]
          effectSubs := st.effectSubs ++ [st.fresh]
          fresh := st.fresh + 1 } := by
  constructor
  · unfold removeEffectSub
    rw [if_pos hin]
    unfold startEffectsSub
    rw [startEffectsSub_foldl]
    simp [stopEffectsSub]
  · unfold addEffectSub
    rw [if_neg (by simp only [hout]; exact Bool.false_ne_true)]
    rfl

/-- Witness for the amended C8 at the two-effect store: removing e2
resubscribes e1 under a fresh identity, and adding e3 starts it immediately
without touching the existing subscriptions. -/
theorem removeEffect_restarts_all_addEffect_starts_immediately_witness :
    twoEffectStore.effects.contains "e2" = true ∧
    twoEffectStore.effects.contains "e3" = false ∧
    removeEffectSub "e2" twoEffectStore
      = { effects := ["e1"], effectSubs := [2], unsubscribed := [0, 1],
          fresh := 3 } ∧
    addEffectSub "e3" twoEffectStore
      = { effects := ["e1", "e2", "e3"], effectSubs := [0, 1, 2],
          unsubscribed := [], fresh := 3 } := by
  have h := removeEffect_restarts_all_addEffect_starts_immediately
    twoEffectStore "e2" "e3" (by decide) (by decide)
  refine ⟨by decide, by decide, ?_, ?_⟩
  · simpa using h.1
  · simpa using h.2


/-- The runtime the signal projector probes: whether the environment
detection reports a server (node) runtime, and whether the solid-js
createSignal primitive can be required without throwing. -/
structure EnvModel where
  isServer : Bool
  solidAvailable : Bool
deriving Repr, DecidableEq

/-- The cache maps of the signal projector; handles and subscriptions are
modelled by object identity. -/
structure ProjectorState where
  signalCache : List (String × Nat)
  signalSubs : List (String × Nat)
deriving Repr, DecidableEq

/-- Map.get / Map.has over the cache: the first entry under the key. -/
def cacheLookup (l : List (String × Nat)) (k : String) : Option Nat :=
  match l.find? (fun e => e.1 == k) with
  | some e => some e.2
  | none => none

/-- createSignal of the signal projector, at the resolved cache key (the
explicit options.key or the generated selector key).  A server runtime
returns null at once.  A cache hit skips creation entirely and returns the
cached handle.  Otherwise requiring solid-js may throw (caught, logged as a
warning, null returned without caching); on success a fresh enhanced handle
is cached under the key together with its projection subscription, and the
cached handle is returned. -/
def createSignal (env : EnvModel) (key : String) (fresh : Nat)
    (ps : ProjectorState) : Option Nat × ProjectorState :=
  if env.isServer then (none, ps)
  else
    match cacheLookup ps.signalCache key with
    | some h => (some h, ps)
    | none =>
        if env.solidAvailable then
          (some fresh,
            { signalCache := ps.signalCache ++ [(key, fresh)],
              signalSubs := ps.signalSubs ++ [(key, fresh + 1)] })
        else (none, ps)

/-- createMemoSignal of the signal projector: the same cache discipline as
createSignal (the memo-derived handle is cached under the resolved key, by
default a memo-prefixed generated key). -/
def createMemoSignal (env : EnvModel) (key : String) (fresh : Nat)
    (ps : ProjectorState) : Option Nat × ProjectorState :=
  if env.isServer then (none, ps)
  else
    match cacheLookup ps.signalCache key with
    | some h => (some h, ps)
    | none =>
        if env.solidAvailable then
          (some fresh,
            { signalCache := ps.signalCache ++ [(key, fresh)],
              signalSubs := ps.signalSubs ++ [(key, fresh + 1)] })
        else (none, ps)

/-- The store configuration fields relevant to signal projection.  A `none`
flag models an absent enableSignals entry. -/
structure EnhancedStoreConfig where
  enableSignals : Option Bool := none
deriving Repr, DecidableEq

/-- select of the enhanced store: it delegates directly to the signal
projector.  The configuration is a field of the store but, as in the
source, no part of it reaches the projector - in particular the
enableSignals flag is not consulted. -/
def storeSelect (_cfg : EnhancedStoreConfig) (env : EnvModel) (key : String)
    (fresh : Nat) (ps : ProjectorState) : Option Nat × ProjectorState :=
  createSignal env key fresh ps

/-- selectMemo of the enhanced store: delegates to createMemoSignal, again
without consulting the configuration. -/
def storeSelectMemo (_cfg : EnhancedStoreConfig) (env : EnvModel)
    (key : String) (fresh : Nat) (ps : ProjectorState) :
    Option Nat × ProjectorState :=
  createMemoSignal env key fresh ps

/-- The signalsEnabled field of getStoreInfo and of the construction log:
isBrowser() && config.enableSignals !== false. -/
def signalsEnabledInfo (cfg : EnhancedStoreConfig) (env : EnvModel) : Bool :=
  !env.isServer && !(cfg.enableSignals == some false)

/-- C6 fails on the code: in a pull-capable runtime (browser environment,
solid-js available) a store configured with enableSignals := false still
hands out non-null handles from select and selectMemo, because the flag is
never consulted on the projection path - even though the diagnostic
signalsEnabled of the very same store reports false.  This theorem
evaluates the code at that failing input. -/
theorem select_ignores_enableSignals_flag :
    signalsEnabledInfo ⟨some false⟩ ⟨false, true⟩ = false ∧
    (storeSelect ⟨some false⟩ ⟨false, true⟩ "k" 0 ⟨[], []⟩).1 = some 0 ∧
    (storeSelectMemo ⟨some false⟩ ⟨false, true⟩ "memo_k" 0 ⟨[], []⟩).1
      = some 0 ∧
    (∀ flag : Option Bool,
      storeSelect ⟨flag⟩ ⟨false, true⟩ "k" 0 ⟨[], []⟩
        = storeSelect ⟨some true⟩ ⟨false, true⟩ "k" 0 ⟨[], []⟩) := by
  refine ⟨by decide, by decide, by decide, fun flag => rfl⟩

/-- A cache key missing from the cache keeps missing under other keys and is
found after its own insertion at the end. -/
theorem cacheLookup_append_self (l : List (String × Nat)) (k : String)
    (v : Nat) (hmiss : cacheLookup l k = none) :
    cacheLookup (l ++ [(k, v)]) k = some v := by
  induction l with
  | nil => simp [cacheLookup]
  | cons hd tl ih =>
      unfold cacheLookup at hmiss ⊢
      rw [List.cons_append, List.find?]
      cases hfind : (hd.1 == k) with
      | true => rw [List.find?] at hmiss; simp [hfind] at hmiss
      | false =>
          rw [List.find?] at hmiss
          simp only [hfind] at hmiss
          exact ih hmiss

/-- C7: a signal cache entry under an explicit key is created at most once
per store lifetime: in a pull-capable runtime, the first select call under a
fresh key caches a handle and its subscription, and a second call under the
same key (before the store is destroyed) returns the identical cached
handle and leaves the projector state - in particular the subscription map -
unchanged. -/
theorem signal_cache_idempotent (env : EnvModel) (cfg : EnhancedStoreConfig)
    (k : String) (ps : ProjectorState) (fresh1 fresh2 : Nat)
    (hserver : env.isServer = false)
    (hsolid : env.solidAvailable = true)
    (hmiss : cacheLookup ps.signalCache k = none) :
    storeSelect cfg env k fresh1 ps
      = (some fresh1,
          { signalCache := ps.signalCache ++ [(k, fresh1)],
            signalSubs := ps.signalSubs ++ [(k, fresh1 + 1)] }) ∧
    storeSelect cfg env k fresh2
        { signalCache := ps.signalCache ++ [(k, fresh1)],
          signalSubs := ps.signalSubs ++ [(k, fresh1 + 1)] }
      = (some fresh1,
          { signalCache := ps.signalCache ++ [(k, fresh1)],
            signalSubs := ps.signalSubs ++ [(k, fresh1 + 1)] }) := by
  constructor
  · simp [storeSelect, createSignal, hserver, hsolid, hmiss]
  · have hhit := cacheLookup_append_self ps.signalCache k fresh1 hmiss
    simp [storeSelect, createSignal, hserver, hhit]

/-- Witness for C7 at a concrete store: two select calls under the key "x"
return the identical handle and the second call adds no subscription. -/
theorem signal_cache_idempotent_witness :
    storeSelect ⟨none⟩ ⟨false, true⟩ "x" 3 ⟨[], []⟩
      = (some 3, ⟨[("x", 3)], [("x", 4)]⟩) ∧
    storeSelect ⟨none⟩ ⟨false, true⟩ "x" 9 ⟨[("x", 3)], [("x", 4)]⟩
      = (some 3, ⟨[("x", 3)], [("x", 4)]⟩) := by
  have h := signal_cache_idempotent ⟨false, true⟩ ⟨none⟩ "x" ⟨[], []⟩ 3 9
    rfl rfl rfl
  exact ⟨by simpa using h.1, by simpa using h.2⟩

end TsStoreX
